import Mathlib

/-!
# AccessBridgeDebug: the file logger of the Java Access Bridge

A shallow embedding of `src/windows/native/sun/bridge/AccessBridgeDebug.cpp`:
the global `logFP`, `initializeFileLogger`, `finalizeFileLogger`,
`getTimeStamp` and the four print functions.

Conventions of the embedding.

* `long long` values are integers kept in the range `[-2^63, 2^63)`; every
  arithmetic result is brought back into that range by `wrap64`
  (wraparound modulo `2^64`).  C division and remainder truncate towards
  zero, which is `Int.tdiv` and `Int.tmod`.
* A `char*` is `Option (List Char)`: `none` is `nullptr`, `some cs` points to
  the characters `cs` followed by a terminating NUL.  A well formed C string
  holds no NUL character (`IsCStr`).
* The C library and the operating system are explicit state: the environment
  variable, which paths `fopen` can open, the characters handed to each
  stream, the calls of `fopen` and `fclose`, standard output and the debugger
  channel.  The characters of a stream are the ones handed to the C library,
  before any translation the library applies to a text stream.
* A write outside an array (`buf`, `charmsg`, `filePath`) has no meaning in C.
  The source has no test and no return at those places, so the embedding
  records the write in the field `overrun` of the state and goes on with the
  next statement, the array holding the text that was written.
-/

namespace AccessBridgeDebug

/-! ## 64 bit arithmetic -/

/-- Wraparound of a mathematical integer into the range of `long long`. -/
def wrap64 (x : Int) : Int := (x + 2 ^ 63) % 2 ^ 64 - 2 ^ 63

/-- The values a `long long` can hold. -/
def inInt64 (x : Int) : Prop := -2 ^ 63 ≤ x ∧ x < 2 ^ 63

instance (x : Int) : Decidable (inInt64 x) := by
  unfold inInt64; infer_instance

/-- The constant `milliDen` of `getTimeStamp`. -/
def milliDen : Int := 1000

/-- Line 83 of the source, `whole = (counter / freq) * milliDen`, as the
mathematical product of the machine quotient, before it is stored. -/
def wholeExact (freq counter : Int) : Int := Int.tdiv counter freq * milliDen

/-- Line 84 of the source, the product `(counter % freq) * milliDen`, as a
mathematical integer, before it is stored. -/
def scaledRemExact (freq counter : Int) : Int := Int.tmod counter freq * milliDen

/-- Line 83 of the source in `long long` arithmetic. -/
def whole (freq counter : Int) : Int := wrap64 (wholeExact freq counter)

/-- Line 84 of the source in `long long` arithmetic. -/
def part (freq counter : Int) : Int :=
  wrap64 (Int.tdiv (wrap64 (scaledRemExact freq counter)) freq)

/-- Line 85 of the source, the sum `whole + part`, as a mathematical integer,
before it is returned. -/
def sumExact (freq counter : Int) : Int := whole freq counter + part freq counter

/-- The function `getTimeStamp` of the source, on the values `freq` and
`counter` that `QueryPerformanceFrequency` and `QueryPerformanceCounter`
report, in `long long` arithmetic.  The frequency Windows reports is positive;
the division by a zero frequency is not given a meaning here. -/
def getTimeStamp (freq counter : Int) : Int := wrap64 (sumExact freq counter)

/-! ## Strings, buffers and the C library -/

/-- The terminating character of a C string. -/
def NUL : Char := Char.ofNat 0

/-- A well formed C string holds no NUL before its terminator. -/
def IsCStr (cs : List Char) : Prop := NUL ∉ cs

instance (cs : List Char) : Decidable (IsCStr cs) := by
  unfold IsCStr; infer_instance

/-- The characters a C function reads from a `char*` that points to `cs`
followed by a NUL: everything before the first NUL. -/
def strOf (cs : List Char) : List Char := cs.takeWhile (fun c => c != NUL)

/-- The function `strlen`. -/
def strlen (cs : List Char) : Nat := (strOf cs).length

/-- A write of the bytes `bytes` into the array `buf` from index `off` on.
The result is `none` when a byte would land outside the array. -/
def poke (buf : List Char) (off : Nat) (bytes : List Char) : Option (List Char) :=
  if off + bytes.length ≤ buf.length then
    some (buf.take off ++ bytes ++ buf.drop (off + bytes.length))
  else none

/-- The call `memset(buf, c, n)`. -/
def memset (buf : List Char) (c : Char) (n : Nat) : Option (List Char) :=
  poke buf 0 (List.replicate n c)

/-- The call `memcpy(buf + off, src, n)`, where `src` points to the characters
`src` followed by a NUL.  Reading past that NUL is out of bounds as well. -/
def memcpy (buf : List Char) (off : Nat) (src : List Char) (n : Nat) : Option (List Char) :=
  if n ≤ src.length + 1 then poke buf off ((src ++ [NUL]).take n) else none

/-- The C string a library function reads out of the array `buf`; `none` when
the array holds no terminator. -/
def cstr (buf : List Char) : Option (List Char) :=
  if NUL ∈ buf then some (strOf buf) else none

/-- The literal `".log"`. -/
def dotLog : List Char := ['.', 'l', 'o', 'g']

/-- Lines 47 to 55 of the source: the array `filePath` after the path has been
composed, or `none` when a write falls outside the array.  `uninit` gives the
contents of the freshly allocated array.  The lengths are natural numbers: two
strings that lie in memory are too short for the sum to leave `size_t`. -/
def composePath (uninit : Nat → Char) (envfilePath fileName : List Char) :
    Option (List Char) := do
  let envFilePathLength := strlen envfilePath
  let fileNameLength := strlen fileName
  let filePathSize := envFilePathLength + 1 + fileNameLength + 5
  let filePath := (List.range filePathSize).map uninit
  let filePath ← memset filePath NUL filePathSize
  let filePath ← memcpy filePath 0 envfilePath envFilePathLength
  let filePath ← poke filePath envFilePathLength ['/']
  let filePath ← memcpy filePath (envFilePathLength + 1) fileName fileNameLength
  memcpy filePath (envFilePathLength + 1 + fileNameLength) dotLog 4

/-- The path of the log file for a directory and a name. -/
def logPath (dir name : List Char) : List Char := dir ++ ['/'] ++ name ++ dotLog

/-- An argument of a variadic call. -/
inductive Arg where
  | int (n : Int)
  | str (s : List Char)
  | wstr (s : List Nat)

/-- The compile time switches of the source. -/
structure Switches where
  DEBUGGING_ON : Bool
  JAVA_DEBUGGING_ON : Bool
  SEND_TO_OUTPUT_DEBUG_STRING : Bool
  SEND_TO_CONSOLE : Bool

/-- The formatting functions of the C library, which the source does not
define: `format` is the text `printf`, `vsprintf` and `vfprintf` produce for a
format string and its arguments, `wformat` the bytes `vfwprintf` puts on a
stream for a wide format string, `narrow` the conversion `"%ls"` applies to a
wide string. -/
structure Libc where
  format : List Char → List Arg → List Char
  wformat : List Nat → List Arg → List Char
  narrow : List Nat → List Char

/-- A `FILE*` that is not null. -/
abbrev Handle := Nat

/-- The global `logFP` together with the parts of the process and of the
operating system the source reads and writes. -/
structure State where
  /-- The global `logFP`; `none` is `nullptr`. -/
  logFP : Option Handle
  /-- The value of `getenv("JAVA_ACCESSBRIDGE_LOGDIR")`. -/
  env : Option (List Char)
  /-- Whether `fopen(path, "w")` succeeds. -/
  canOpen : List Char → Bool
  /-- The handle the next successful `fopen` returns. -/
  nextHandle : Handle
  /-- The characters handed to each stream since it was opened. -/
  written : Handle → List Char
  /-- The calls of `fopen` so far: path and mode. -/
  fopenCalls : List (List Char × List Char)
  /-- The calls of `fclose` so far. -/
  fcloseCalls : List Handle
  /-- Standard output. -/
  console : List Char
  /-- The strings passed to `OutputDebugString`. -/
  debugOut : List (List Char)
  /-- The value `QueryPerformanceFrequency` reports. -/
  freq : Int
  /-- The value `QueryPerformanceCounter` reports. -/
  counter : Int
  /-- The contents of freshly allocated memory. -/
  uninit : Nat → Char
  /-- Set when a call has written outside an array. -/
  overrun : Bool

/-- The sink is Open. -/
def State.isOpen (s : State) : Bool := s.logFP.isSome

/-- The state after a write outside an array. -/
def markOverrun (s : State) : State := { s with overrun := true }

/-- A `sprintf` or `vsprintf` of the text `text` into a `char` array of
`cap` elements.  The source passes no bound: when the text and its terminator
do not fit, the call writes behind the array, which the state records. -/
def sprintfInto (cap : Nat) (text : List Char) (s : State) : State :=
  if text.length < cap then s else markOverrun s

/-- The text `"%llu"` produces for a `long long` argument: the decimal digits
of the value read as an unsigned 64 bit number. -/
def fmtLLU (x : Int) : List Char := Nat.toDigits 10 (x % 2 ^ 64).toNat

/-- Output of the characters `text` on the stream `fp`. -/
def streamWrite (fp : Handle) (text : List Char) (s : State) : State :=
  { s with written := Function.update s.written fp (s.written fp ++ text) }

/-- The call `fopen(path, "w")`. -/
def fopenW (path : List Char) (s : State) : Option Handle × State :=
  let s1 := { s with fopenCalls := s.fopenCalls ++ [(path, ['w'])] }
  if s.canOpen path then
    (some s.nextHandle,
      { s1 with nextHandle := s.nextHandle + 1,
                written := Function.update s.written s.nextHandle [] })
  else (none, s1)

/-- The call `fclose(fp)`. -/
def fclose (fp : Handle) (s : State) : State :=
  { s with fcloseCalls := s.fcloseCalls ++ [fp] }

/-- The lines between `#ifdef SEND_TO_OUTPUT_DEBUG_STRING` and the `#endif` of
`SEND_TO_CONSOLE`, the same in the four print functions:
`OutputDebugString(buf)`, then `printf(buf)` and `printf("\r\n")`. -/
def mirror (sw : Switches) (libc : Libc) (buf : List Char) (s : State) : State :=
  let s1 := if sw.SEND_TO_OUTPUT_DEBUG_STRING then
    { s with debugOut := s.debugOut ++ [buf] } else s
  if sw.SEND_TO_CONSOLE then
    { s1 with console := s1.console ++ libc.format buf [] ++ ['\r', '\n'] }
  else s1

/-- The block `if (logFP) { ... }` that ends each print function; `body` is
the text the call of `vfprintf` or `vfwprintf` puts on the stream. -/
def logToFile (body : List Char) (s : State) : State :=
  match s.logFP with
  | some fp =>
    let s1 := streamWrite fp (['['] ++ fmtLLU (getTimeStamp s.freq s.counter) ++ [']', ' ']) s
    let s2 := streamWrite fp body s1
    streamWrite fp ['\r', '\n'] s2
  | none => s

/-- The function `PrintDebugString`. -/
def PrintDebugString (sw : Switches) (libc : Libc) (msg : List Char) (args : List Arg)
    (s : State) : State :=
  if sw.DEBUGGING_ON then
    let buf := libc.format msg args
    let s1 := sprintfInto 1024 buf s
    logToFile (libc.format msg args) (mirror sw libc buf s1)
  else logToFile (libc.format msg args) s

/-- The function `PrintJavaDebugString2`. -/
def PrintJavaDebugString2 (sw : Switches) (libc : Libc) (msg : List Char) (args : List Arg)
    (s : State) : State :=
  if sw.JAVA_DEBUGGING_ON then
    let buf := libc.format msg args
    let s1 := sprintfInto 1024 buf s
    logToFile (libc.format msg args) (mirror sw libc buf s1)
  else logToFile (libc.format msg args) s

/-- The function `wPrintDebugString`. -/
def wPrintDebugString (sw : Switches) (libc : Libc) (msg : List Nat) (args : List Arg)
    (s : State) : State :=
  if sw.DEBUGGING_ON then
    let charmsg := libc.narrow msg
    let s1 := sprintfInto 256 charmsg s
    let buf := libc.format charmsg args
    let s2 := sprintfInto 1024 buf s1
    logToFile (libc.wformat msg args) (mirror sw libc buf s2)
  else logToFile (libc.wformat msg args) s

/-- The function `wPrintJavaDebugString`. -/
def wPrintJavaDebugString (sw : Switches) (libc : Libc) (msg : List Nat) (args : List Arg)
    (s : State) : State :=
  if sw.JAVA_DEBUGGING_ON then
    let charmsg := libc.narrow msg
    let s1 := sprintfInto 256 charmsg s
    let buf := libc.format charmsg args
    let s2 := sprintfInto 1024 buf s1
    logToFile (libc.wformat msg args) (mirror sw libc buf s2)
  else logToFile (libc.wformat msg args) s

/-- The format string of the notice in `initializeFileLogger`. -/
def couldNotOpen : List Char := "Could not open file %s".toList

/-- The function `initializeFileLogger`. -/
def initializeFileLogger (sw : Switches) (libc : Libc) (fileName : Option (List Char))
    (s : State) : State :=
  match s.env, fileName with
  | some envfilePath, some fileName =>
    match composePath s.uninit envfilePath fileName with
    | none => markOverrun s
    | some filePath =>
      match cstr filePath with
      | none => markOverrun s
      | some path =>
        match fopenW path s with
        | (some fp, s1) => { s1 with logFP := some fp }
        | (none, s1) =>
          let s2 := { s1 with logFP := none }
          let s3 := { s2 with console := s2.console ++ ['\n'] ++ path ++ ['\n'] }
          PrintDebugString sw libc couldNotOpen [Arg.str path] s3
  | _, _ => s

/-- The function `finalizeFileLogger`. -/
def finalizeFileLogger (s : State) : State :=
  match s.logFP with
  | some fp => { fclose fp s with logFP := none }
  | none => s

/-- One call of a print function. -/
inductive PrintCall where
  | native (msg : List Char) (args : List Arg)
  | java (msg : List Char) (args : List Arg)
  | wnative (msg : List Nat) (args : List Arg)
  | wjava (msg : List Nat) (args : List Arg)

/-- The effect of one call of a print function. -/
def PrintCall.run (sw : Switches) (libc : Libc) : PrintCall → State → State
  | .native msg args => PrintDebugString sw libc msg args
  | .java msg args => PrintJavaDebugString2 sw libc msg args
  | .wnative msg args => wPrintDebugString sw libc msg args
  | .wjava msg args => wPrintJavaDebugString sw libc msg args

/-- The effect of a sequence of calls of print functions. -/
def runPrints (sw : Switches) (libc : Libc) (calls : List PrintCall) (s : State) : State :=
  calls.foldl (fun st c => c.run sw libc st) s

/-- The line a print function puts into the log file. -/
def logLine (ts : Int) (body : List Char) : List Char :=
  ['['] ++ fmtLLU ts ++ [']', ' '] ++ body ++ ['\r', '\n']

/-- The parts of the state that make up the logger: the sink, the contents of
the streams and the calls of `fopen` and `fclose`. -/
def sameLogger (s t : State) : Prop :=
  t.logFP = s.logFP ∧ t.written = s.written ∧ t.fopenCalls = s.fopenCalls ∧
    t.fcloseCalls = s.fcloseCalls

/-- The parts of the state the block `if (logFP) { ... }` reads and writes, and
the calls of `fopen` and `fclose`. -/
def agree (s t : State) : Prop :=
  t.logFP = s.logFP ∧ t.written = s.written ∧ t.fopenCalls = s.fopenCalls ∧
    t.fcloseCalls = s.fcloseCalls ∧ t.freq = s.freq ∧ t.counter = s.counter

/-! ## Concrete inputs for the examples -/

/-- A small formatter for the examples: `%s` is replaced by the next string
argument, every other character is copied. -/
def exFormat : List Char → List Arg → List Char
  | [], _ => []
  | '%' :: 's' :: rest, Arg.str a :: args => a ++ exFormat rest args
  | c :: rest, args => c :: exFormat rest args

/-- A C library for the examples; wide characters are converted one by one. -/
def exLibc : Libc where
  format := exFormat
  wformat := fun msg args => exFormat (msg.map Char.ofNat) args
  narrow := fun msg => msg.map Char.ofNat

/-- Every switch defined. -/
def allOn : Switches := ⟨true, true, true, true⟩

/-- No switch defined. -/
def allOff : Switches := ⟨false, false, false, false⟩

/-- A process that has not opened the log: the variable names the directory
`d`, every file can be opened, the counter runs at 10 MHz. -/
def closedState : State where
  logFP := none
  env := some ['d']
  canOpen := fun _ => true
  nextHandle := 0
  written := fun _ => []
  fopenCalls := []
  fcloseCalls := []
  console := []
  debugOut := []
  freq := 10000000
  counter := 12345678
  uninit := fun _ => 'X'
  overrun := false

/-- The process after a log has been opened as stream 0. -/
def openState : State :=
  { closedState with logFP := some 0, nextHandle := 1, fopenCalls := [("d/x.log".toList, ['w'])] }

/-- A process in which no file can be opened. -/
def lockedState : State := { closedState with canOpen := fun _ => false }

/-- A process with an open log in which no further file can be opened. -/
def openLockedState : State := { openState with canOpen := fun _ => false }

/-- A process without the environment variable. -/
def noEnvState : State := { closedState with env := none }

/-- A message of 1024 characters without conversion specification. -/
def longMsg : List Char := List.replicate 1024 'a'

/-- A message of 2048 characters without conversion specification. -/
def hugeMsg : List Char := List.replicate 2048 'a'

/-! ## Arithmetic lemmas -/

theorem wrap64_of_inInt64 {x : Int} (h : inInt64 x) : wrap64 x = x := by
  unfold inInt64 at h
  unfold wrap64
  rw [Int.emod_eq_of_lt (by omega) (by omega)]
  omega

theorem split_eq_floor (freq counter : Int) (hf : 0 < freq) :
    counter / freq * 1000 + counter % freq * 1000 / freq = counter * 1000 / freq := by
  have h : counter * 1000 = counter % freq * 1000 + counter / freq * 1000 * freq := by
    have := Int.emod_add_ediv counter freq
    nlinarith [this]
  rw [h, Int.add_mul_ediv_right _ _ (ne_of_gt hf)]
  ring

theorem machine_eq_floor_of_rem (freq counter : Int) (hf : 0 < freq) (hc : 0 ≤ counter)
    (hrem : counter % freq * 1000 < 2 ^ 63) (hms : counter * 1000 / freq < 2 ^ 63) :
    inInt64 (wholeExact freq counter) ∧ inInt64 (scaledRemExact freq counter) ∧
      inInt64 (sumExact freq counter) ∧ getTimeStamp freq counter = counter * 1000 / freq := by
  have hr0 : 0 ≤ counter % freq := Int.emod_nonneg _ (ne_of_gt hf)
  have hq0 : 0 ≤ counter / freq := Int.ediv_nonneg hc (le_of_lt hf)
  have hp0 : 0 ≤ counter % freq * 1000 / freq := Int.ediv_nonneg (by positivity) (le_of_lt hf)
  have hple : counter % freq * 1000 / freq ≤ counter % freq * 1000 :=
    Int.ediv_le_self _ (by positivity)
  have hsplit := split_eq_floor freq counter hf
  have hW : wholeExact freq counter = counter / freq * 1000 := by
    unfold wholeExact milliDen
    rw [Int.tdiv_eq_ediv hc (le_of_lt hf)]
  have hR : scaledRemExact freq counter = counter % freq * 1000 := by
    unfold scaledRemExact milliDen
    rw [Int.tmod_eq_emod hc (le_of_lt hf)]
  have hWin : inInt64 (wholeExact freq counter) := by
    rw [hW]; unfold inInt64; constructor <;> omega
  have hRin : inInt64 (scaledRemExact freq counter) := by
    rw [hR]; unfold inInt64; constructor <;> omega
  have hPin : inInt64 (counter % freq * 1000 / freq) := by
    unfold inInt64; constructor <;> omega
  have hP : part freq counter = counter % freq * 1000 / freq := by
    unfold part
    rw [wrap64_of_inInt64 hRin, hR, Int.tdiv_eq_ediv (by positivity) (le_of_lt hf),
      wrap64_of_inInt64 hPin]
  have hS : sumExact freq counter = counter * 1000 / freq := by
    unfold sumExact whole
    rw [wrap64_of_inInt64 hWin, hW, hP, hsplit]
  have hSin : inInt64 (sumExact freq counter) := by
    rw [hS]; unfold inInt64
    have : 0 ≤ counter * 1000 / freq := Int.ediv_nonneg (by positivity) (le_of_lt hf)
    constructor <;> omega
  refine ⟨hWin, hRin, hSin, ?_⟩
  unfold getTimeStamp
  rw [wrap64_of_inInt64 hSin, hS]

theorem machine_eq_floor (freq counter : Int) (hf : 0 < freq) (hfs : 1000 * freq < 2 ^ 63)
    (hc : 0 ≤ counter) (hms : counter * 1000 / freq < 2 ^ 63) :
    inInt64 (wholeExact freq counter) ∧ inInt64 (scaledRemExact freq counter) ∧
      inInt64 (sumExact freq counter) ∧ getTimeStamp freq counter = counter * 1000 / freq := by
  have hrlt : counter % freq < freq := Int.emod_lt_of_pos _ hf
  exact machine_eq_floor_of_rem freq counter hf hc (by omega) hms

theorem scaledRemExact_eq (freq counter : Int) (hf : 0 < freq) (hc : 0 ≤ counter) :
    scaledRemExact freq counter = counter % freq * 1000 := by
  unfold scaledRemExact milliDen
  rw [Int.tmod_eq_emod hc (le_of_lt hf)]

theorem floor_mono (freq c1 c2 : Int) (hf : 0 < freq) (h : c1 ≤ c2) :
    c1 * 1000 / freq ≤ c2 * 1000 / freq :=
  Int.ediv_le_ediv hf (by omega)

/-! ## Lemmas on strings and buffers -/

theorem strOf_ne_NUL (cs : List Char) : ∀ c ∈ strOf cs, (c != NUL) = true := by
  intro c hc
  unfold strOf at hc
  exact List.mem_takeWhile_imp (p := fun c => c != NUL) hc

theorem strOf_of_isCStr {cs : List Char} (h : IsCStr cs) : strOf cs = cs := by
  unfold strOf
  rw [List.takeWhile_eq_self_iff]
  intro x hx
  simp only [bne_iff_ne, ne_eq]
  rintro rfl
  exact h hx

theorem strlen_le (cs : List Char) : strlen cs ≤ cs.length :=
  (List.takeWhile_prefix _).length_le

theorem take_strlen (cs : List Char) : (cs ++ [NUL]).take (strlen cs) = strOf cs := by
  have h : strOf cs <+: cs ++ [NUL] :=
    (List.takeWhile_prefix _).trans (List.prefix_append _ _)
  exact (List.prefix_iff_eq_take.mp h).symm

theorem memset_all (buf : List Char) (c : Char) (n : Nat) (h : buf.length = n) :
    memset buf c n = some (List.replicate n c) := by
  unfold memset poke
  simp [h]

theorem poke_tail (a bytes : List Char) (off n : Nat) (hoff : off = a.length)
    (h : bytes.length ≤ n) :
    poke (a ++ List.replicate n NUL) off bytes =
      some (a ++ bytes ++ List.replicate (n - bytes.length) NUL) := by
  subst hoff
  unfold poke
  rw [if_pos (by simp only [List.length_append, List.length_replicate]; omega)]
  rw [List.take_left, List.drop_append, List.drop_replicate]

theorem memcpy_tail (a src : List Char) (off n : Nat) (hoff : off = a.length)
    (h : strlen src ≤ n) :
    memcpy (a ++ List.replicate n NUL) off src (strlen src) =
      some (a ++ strOf src ++ List.replicate (n - strlen src) NUL) := by
  unfold memcpy
  rw [if_pos (le_trans (strlen_le src) (Nat.le_succ _)), take_strlen]
  exact poke_tail a (strOf src) off n hoff h

theorem composePath_eq (uninit : Nat → Char) (dir name : List Char) :
    composePath uninit dir name = some (logPath (strOf dir) (strOf name) ++ [NUL]) := by
  have h1 := memset_all ((List.range (strlen dir + 1 + strlen name + 5)).map uninit) NUL
    (strlen dir + 1 + strlen name + 5) (by simp)
  have h2 := memcpy_tail [] dir 0 (strlen dir + 1 + strlen name + 5) rfl (by omega)
  have h3 := poke_tail (strOf dir) ['/'] (strlen dir) (strlen dir + 1 + strlen name + 5 - strlen dir)
    rfl (by simp only [List.length_singleton]; omega)
  have h4 := memcpy_tail (strOf dir ++ ['/']) name (strlen dir + 1)
    (strlen dir + 1 + strlen name + 5 - strlen dir - 1)
    (by simp only [List.length_append, List.length_singleton]; rfl) (by omega)
  have h5 := poke_tail (strOf dir ++ ['/'] ++ strOf name) dotLog (strlen dir + 1 + strlen name)
    (strlen dir + 1 + strlen name + 5 - strlen dir - 1 - strlen name)
    (by simp only [List.length_append, List.length_singleton]; rfl)
    (by simp only [dotLog, List.length_cons, List.length_nil]; omega)
  have h6 : strlen dir + 1 + strlen name + 5 - strlen dir - 1 - strlen name - dotLog.length = 1 := by
    simp only [dotLog, List.length_cons, List.length_nil]; omega
  have h7 : memcpy (strOf dir ++ ['/'] ++ strOf name ++
      List.replicate (strlen dir + 1 + strlen name + 5 - strlen dir - 1 - strlen name) NUL)
      (strlen dir + 1 + strlen name) dotLog 4 = some (logPath (strOf dir) (strOf name) ++ [NUL]) := by
    unfold memcpy
    rw [if_pos (by decide)]
    have : (dotLog ++ [NUL]).take 4 = dotLog := rfl
    rw [this, h5, h6]
    rfl
  simp only [List.nil_append, List.length_singleton] at h2 h3 h4
  unfold composePath
  simp only [Option.bind_eq_bind, h1, Option.some_bind, h2, h3, h4, h7]

theorem logPath_ne_NUL (dir name : List Char) :
    ∀ c ∈ logPath (strOf dir) (strOf name), (c != NUL) = true := by
  intro c hc
  unfold logPath at hc
  simp only [List.mem_append, List.mem_singleton] at hc
  rcases hc with ((hc | hc) | hc) | hc
  · exact strOf_ne_NUL dir c hc
  · subst hc; decide
  · exact strOf_ne_NUL name c hc
  · revert c; decide

theorem cstr_terminated (a : List Char) (h : ∀ c ∈ a, (c != NUL) = true) :
    cstr (a ++ [NUL]) = some a := by
  unfold cstr strOf
  rw [if_pos (by simp), List.takeWhile_append_of_pos h]
  simp

/-! ## The claims on `getTimeStamp` -/

/-- C5, as stated, fails: `getTimeStamp` computes in `long long`; for `freq = 1`
and the tick count 18446744073709552 the product of line 83 wraps and the
function returns 384, not `floor (counter * 1000 / freq)`. -/
theorem getTimeStamp_ne_floor :
    (0 : Int) < 1 ∧ (0 : Int) ≤ 18446744073709552 ∧
      (18446744073709552 : Int) < 2 ^ 63 ∧
      getTimeStamp 1 18446744073709552 = 384 ∧
      (18446744073709552 : Int) * 1000 / 1 = 18446744073709552000 ∧
      getTimeStamp 1 18446744073709552 ≠ 18446744073709552 * 1000 / 1 := by
  decide

/-- C5, amended: for every frequency `freq > 0` and every tick count
`counter ≥ 0` for which the product `(counter % freq) * 1000` of line 84 and
the millisecond value `floor (counter * 1000 / freq)` are below `2^63`, the
value `getTimeStamp` computes equals `floor (counter * 1000 / freq)`. -/
theorem getTimeStamp_eq_floor (freq counter : Int) (hf : 0 < freq) (hc : 0 ≤ counter)
    (hrem : scaledRemExact freq counter < 2 ^ 63) (hms : counter * 1000 / freq < 2 ^ 63) :
    getTimeStamp freq counter = counter * 1000 / freq :=
  (machine_eq_floor_of_rem freq counter hf hc
    (by rw [← scaledRemExact_eq freq counter hf hc]; exact hrem) hms).2.2.2

theorem getTimeStamp_eq_floor_witness :
    getTimeStamp 3 10 = 3333 ∧ (10 : Int) * 1000 / 3 = 3333 :=
  ⟨(getTimeStamp_eq_floor 3 10 (by decide) (by decide) (by decide) (by decide)).trans
    (by decide), by decide⟩

/-- C10: for `0 < freq`, `1000 * freq < 2^63`, `0 ≤ counter < 2^63` and a
millisecond value below `2^63`, none of the three operations of `getTimeStamp`
that can overflow leaves the range of `long long`, and the function returns
`floor (counter * 1000 / freq)`. -/
theorem getTimeStamp_no_wrap (freq counter : Int) (hf : 0 < freq)
    (hfs : 1000 * freq < 2 ^ 63) (hc : 0 ≤ counter) (_hc63 : counter < 2 ^ 63)
    (hms : counter * 1000 / freq < 2 ^ 63) :
    inInt64 (wholeExact freq counter) ∧ inInt64 (scaledRemExact freq counter) ∧
      inInt64 (sumExact freq counter) ∧ getTimeStamp freq counter = counter * 1000 / freq :=
  machine_eq_floor freq counter hf hfs hc hms

theorem getTimeStamp_no_wrap_witness :
    (2 : Int) ^ 63 ≤ 10000000000000000 * 1000 ∧
      getTimeStamp 10000000 10000000000000000 = 1000000000000 :=
  ⟨by decide,
    (getTimeStamp_no_wrap 10000000 10000000000000000 (by decide) (by decide) (by decide)
      (by decide) (by decide)).2.2.2.trans (by decide)⟩

/-- C6, as stated, fails: with `freq = 1` the product in line 83 wraps, and the
later tick count gets the smaller timestamp. -/
theorem getTimeStamp_not_monotone :
    (0 : Int) < 1 ∧ (0 : Int) ≤ 9223372036854775 ∧
      (9223372036854775 : Int) ≤ 18446744073709552 ∧
      (18446744073709552 : Int) < 2 ^ 63 ∧
      getTimeStamp 1 9223372036854775 = 9223372036854775000 ∧
      getTimeStamp 1 18446744073709552 = 384 ∧
      ¬ getTimeStamp 1 9223372036854775 ≤ getTimeStamp 1 18446744073709552 := by
  decide

/-- C6, amended: for a fixed frequency with `0 < freq` and `1000 * freq < 2^63`
and tick counts `0 ≤ c1 ≤ c2` whose millisecond values are below `2^63`, the
timestamp of `c1` is at most the timestamp of `c2`. -/
theorem getTimeStamp_monotone (freq c1 c2 : Int) (hf : 0 < freq)
    (hfs : 1000 * freq < 2 ^ 63) (h1 : 0 ≤ c1) (h12 : c1 ≤ c2)
    (hms : c2 * 1000 / freq < 2 ^ 63) :
    getTimeStamp freq c1 ≤ getTimeStamp freq c2 := by
  have hmono := floor_mono freq c1 c2 hf h12
  rw [(machine_eq_floor freq c1 hf hfs h1 (lt_of_le_of_lt hmono hms)).2.2.2,
    (machine_eq_floor freq c2 hf hfs (le_trans h1 h12) hms).2.2.2]
  exact hmono

theorem getTimeStamp_monotone_witness :
    getTimeStamp 10000000 12345678 ≤ getTimeStamp 10000000 12345679 :=
  getTimeStamp_monotone 10000000 12345678 12345679 (by decide) (by decide) (by decide)
    (by decide) (by decide)

/-! ## Lemmas on the print functions -/

theorem logToFile_closed (body : List Char) (s : State) (h : s.logFP = none) :
    logToFile body s = s := by
  unfold logToFile
  rw [h]

theorem logToFile_open (body : List Char) (s : State) (fp : Handle) (h : s.logFP = some fp) :
    logToFile body s =
      { s with written := (Function.update s.written fp
          (s.written fp ++ logLine (getTimeStamp s.freq s.counter) body)) } := by
  unfold logToFile
  simp only [h, streamWrite, logLine, Function.update_same, Function.update_idem,
    List.append_assoc]

theorem logToFile_logFP (body : List Char) (s : State) : (logToFile body s).logFP = s.logFP := by
  cases h : s.logFP with
  | none => rw [logToFile_closed body s h, h]
  | some fp => rw [logToFile_open body s fp h]; exact h

theorem logToFile_calls (body : List Char) (s : State) :
    (logToFile body s).fopenCalls = s.fopenCalls ∧
      (logToFile body s).fcloseCalls = s.fcloseCalls := by
  cases h : s.logFP with
  | none => rw [logToFile_closed body s h]; exact ⟨rfl, rfl⟩
  | some fp => rw [logToFile_open body s fp h]; exact ⟨rfl, rfl⟩

theorem agree_refl (s : State) : agree s s := ⟨rfl, rfl, rfl, rfl, rfl, rfl⟩

theorem agree_trans {s t u : State} (h1 : agree s t) (h2 : agree t u) : agree s u :=
  ⟨h2.1.trans h1.1, h2.2.1.trans h1.2.1, h2.2.2.1.trans h1.2.2.1,
    h2.2.2.2.1.trans h1.2.2.2.1, h2.2.2.2.2.1.trans h1.2.2.2.2.1,
    h2.2.2.2.2.2.trans h1.2.2.2.2.2⟩

theorem sprintfInto_agree (cap : Nat) (text : List Char) (s : State) :
    agree s (sprintfInto cap text s) := by
  unfold sprintfInto
  split_ifs
  · exact agree_refl s
  · exact ⟨rfl, rfl, rfl, rfl, rfl, rfl⟩

theorem mirror_agree (sw : Switches) (libc : Libc) (buf : List Char) (s : State) :
    agree s (mirror sw libc buf s) := by
  unfold mirror
  split_ifs <;> exact ⟨rfl, rfl, rfl, rfl, rfl, rfl⟩

theorem logToFile_agree (body : List Char) (s t : State) (h : agree s t) :
    (logToFile body t).logFP = s.logFP ∧
      (logToFile body t).written = (logToFile body s).written ∧
      (logToFile body t).fopenCalls = s.fopenCalls ∧
      (logToFile body t).fcloseCalls = s.fcloseCalls := by
  obtain ⟨h1, h2, h3, h4, h5, h6⟩ := h
  cases hs : s.logFP with
  | none =>
    rw [logToFile_closed body t (h1.trans hs), logToFile_closed body s hs]
    exact ⟨h1.trans hs, h2, h3, h4⟩
  | some fp =>
    rw [logToFile_open body t fp (h1.trans hs), logToFile_open body s fp hs]
    refine ⟨h1.trans hs, ?_, h3, h4⟩
    simp only [h2, h5, h6]

/-- What a call of a print function leaves alone, whatever the switches. -/
theorem print_frame (sw : Switches) (libc : Libc) (c : PrintCall) (s : State) :
    (c.run sw libc s).logFP = s.logFP ∧ (c.run sw libc s).fopenCalls = s.fopenCalls ∧
      (c.run sw libc s).fcloseCalls = s.fcloseCalls ∧
      (s.logFP = none → (c.run sw libc s).written = s.written) := by
  have key : ∀ (body : List Char) (t : State), agree s t →
      (logToFile body t).logFP = s.logFP ∧ (logToFile body t).fopenCalls = s.fopenCalls ∧
      (logToFile body t).fcloseCalls = s.fcloseCalls ∧
      (s.logFP = none → (logToFile body t).written = s.written) := fun body t h =>
    ⟨(logToFile_agree body s t h).1, (logToFile_agree body s t h).2.2.1,
      (logToFile_agree body s t h).2.2.2,
      fun hc => by rw [(logToFile_agree body s t h).2.1, logToFile_closed body s hc]⟩
  cases c with
  | native msg args =>
    simp only [PrintCall.run, PrintDebugString]
    split_ifs
    · exact key _ _ (agree_trans (sprintfInto_agree _ _ _) (mirror_agree _ _ _ _))
    · exact key _ _ (agree_refl s)
  | java msg args =>
    simp only [PrintCall.run, PrintJavaDebugString2]
    split_ifs
    · exact key _ _ (agree_trans (sprintfInto_agree _ _ _) (mirror_agree _ _ _ _))
    · exact key _ _ (agree_refl s)
  | wnative msg args =>
    simp only [PrintCall.run, wPrintDebugString]
    split_ifs
    · exact key _ _ (agree_trans (agree_trans (sprintfInto_agree _ _ _)
        (sprintfInto_agree _ _ _)) (mirror_agree _ _ _ _))
    · exact key _ _ (agree_refl s)
  | wjava msg args =>
    simp only [PrintCall.run, wPrintJavaDebugString]
    split_ifs
    · exact key _ _ (agree_trans (agree_trans (sprintfInto_agree _ _ _)
        (sprintfInto_agree _ _ _)) (mirror_agree _ _ _ _))
    · exact key _ _ (agree_refl s)

theorem runPrints_frame (sw : Switches) (libc : Libc) (calls : List PrintCall) (s : State) :
    (runPrints sw libc calls s).logFP = s.logFP ∧
      (runPrints sw libc calls s).fopenCalls = s.fopenCalls ∧
      (runPrints sw libc calls s).fcloseCalls = s.fcloseCalls ∧
      (s.logFP = none → (runPrints sw libc calls s).written = s.written) := by
  induction calls generalizing s with
  | nil => exact ⟨rfl, rfl, rfl, fun _ => rfl⟩
  | cons c rest ih =>
    have h1 := print_frame sw libc c s
    have h2 := ih (c.run sw libc s)
    simp only [runPrints, List.foldl_cons] at h2 ⊢
    refine ⟨h2.1.trans h1.1, h2.2.1.trans h1.2.1, h2.2.2.1.trans h1.2.2.1, fun h => ?_⟩
    rw [h2.2.2.2 (h1.1.trans h), h1.2.2.2 h]

theorem exFormat_replicate (n : Nat) :
    exFormat (List.replicate n 'a') [] = List.replicate n 'a' := by
  induction n with
  | zero => rfl
  | succ k ih =>
    rw [List.replicate_succ]
    simp [exFormat, ih]

/-- The array `buf` of `PrintDebugString` is overrun exactly when the switch is
defined and the rendered message has 1024 characters or more. -/
theorem PrintDebugString_overrun_iff (sw : Switches) (libc : Libc) (msg : List Char)
    (args : List Arg) (s : State) (h : s.overrun = false) :
    (PrintDebugString sw libc msg args s).overrun = true ↔
      sw.DEBUGGING_ON = true ∧ 1024 ≤ (libc.format msg args).length := by
  have hl : ∀ (body : List Char) (t : State), (logToFile body t).overrun = t.overrun := by
    intro body t
    cases ht : t.logFP with
    | none => rw [logToFile_closed body t ht]
    | some fp => rw [logToFile_open body t fp ht]
  have hm : ∀ (buf : List Char) (t : State), (mirror sw libc buf t).overrun = t.overrun := by
    intro buf t
    unfold mirror
    split_ifs <;> rfl
  unfold PrintDebugString
  split_ifs with hsw
  · simp only [hl, hm, sprintfInto]
    split_ifs with hlen
    · simp only [h, hsw, true_and]
      constructor
      · intro hc; exact absurd hc (by decide)
      · intro hc; omega
    · simp only [markOverrun, hsw, true_and, true_iff]
      omega
  · simp only [hl, h]
    constructor
    · intro hc; exact absurd hc (by decide)
    · intro hc; exact absurd hc.1 hsw

/-! ## Lemmas on `initializeFileLogger` -/

theorem initialize_null (sw : Switches) (libc : Libc) (s : State) :
    initializeFileLogger sw libc none s = s := by
  unfold initializeFileLogger
  cases s.env <;> rfl

theorem initialize_noenv (sw : Switches) (libc : Libc) (fileName : Option (List Char))
    (s : State) (h : s.env = none) : initializeFileLogger sw libc fileName s = s := by
  unfold initializeFileLogger
  rw [h]

theorem initialize_some (sw : Switches) (libc : Libc) (dir name : List Char) (s : State)
    (h : s.env = some dir) :
    initializeFileLogger sw libc (some name) s =
      match fopenW (logPath (strOf dir) (strOf name)) s with
      | (some fp, s1) => { s1 with logFP := some fp }
      | (none, s1) =>
        PrintDebugString sw libc couldNotOpen [Arg.str (logPath (strOf dir) (strOf name))]
          { s1 with logFP := none,
                    console := s1.console ++ ['\n'] ++ logPath (strOf dir) (strOf name) ++ ['\n'] } := by
  unfold initializeFileLogger
  simp only [h, composePath_eq, cstr_terminated _ (logPath_ne_NUL dir name)]

theorem initialize_opened (sw : Switches) (libc : Libc) (dir name : List Char) (s : State)
    (h : s.env = some dir) (hcan : s.canOpen (logPath (strOf dir) (strOf name)) = true) :
    (initializeFileLogger sw libc (some name) s).logFP = some s.nextHandle ∧
      (initializeFileLogger sw libc (some name) s).fopenCalls =
        s.fopenCalls ++ [(logPath (strOf dir) (strOf name), ['w'])] := by
  rw [initialize_some sw libc dir name s h]
  unfold fopenW
  rw [if_pos hcan]
  exact ⟨rfl, rfl⟩

theorem initialize_failed (sw : Switches) (libc : Libc) (dir name : List Char) (s : State)
    (h : s.env = some dir) (hcan : s.canOpen (logPath (strOf dir) (strOf name)) = false) :
    (initializeFileLogger sw libc (some name) s).logFP = none ∧
      (initializeFileLogger sw libc (some name) s).fopenCalls =
        s.fopenCalls ++ [(logPath (strOf dir) (strOf name), ['w'])] := by
  rw [initialize_some sw libc dir name s h]
  unfold fopenW
  rw [if_neg (by rw [hcan]; decide)]
  exact ⟨(print_frame sw libc (PrintCall.native _ _) _).1,
    (print_frame sw libc (PrintCall.native _ _) _).2.1⟩

/-! ## The claims on the print functions -/

/-- C1, at the failing input: with `DEBUGGING_ON` defined and a message of 2048
characters, `PrintDebugString` on an Open sink writes behind the array `buf`
before it reaches the block that writes the log; with the switch undefined the
same call writes behind no array and puts the line on the log stream. -/
theorem PrintDebugString_overruns_buf :
    openState.logFP = some 0 ∧ openState.overrun = false ∧
      (exLibc.format hugeMsg []).length = 2048 ∧
      (PrintDebugString allOn exLibc hugeMsg [] openState).overrun = true ∧
      (PrintDebugString allOff exLibc hugeMsg [] openState).overrun = false ∧
      (PrintDebugString allOff exLibc hugeMsg [] openState).written 0 =
        openState.written 0 ++
          logLine (getTimeStamp openState.freq openState.counter) (exLibc.format hugeMsg []) := by
  have hlen : (exLibc.format hugeMsg []).length = 2048 := by
    show (exFormat (List.replicate 2048 'a') []).length = 2048
    rw [exFormat_replicate, List.length_replicate]
  refine ⟨rfl, rfl, hlen, ?_, ?_, ?_⟩
  · exact (PrintDebugString_overrun_iff allOn exLibc hugeMsg [] openState rfl).mpr
      ⟨rfl, by rw [hlen]; decide⟩
  · cases h : (PrintDebugString allOff exLibc hugeMsg [] openState).overrun with
    | false => rfl
    | true =>
      exact absurd ((PrintDebugString_overrun_iff allOff exLibc hugeMsg [] openState rfl).mp h).1
        (by decide)
  · have hrun : PrintDebugString allOff exLibc hugeMsg [] openState =
        logToFile (exLibc.format hugeMsg []) openState := rfl
    rw [hrun, logToFile_open _ openState 0 rfl]
    simp only [Function.update_same]

/-- C2: when the sink is Closed, each of the four print functions leaves the
logger alone: the sink stays Closed, no stream receives a character, and no
file is opened or closed.  When the debug block of a function is compiled out
the call changes nothing at all. -/
theorem print_closed_noop (sw : Switches) (libc : Libc) (msg : List Char) (wmsg : List Nat)
    (args : List Arg) (s : State) (hclosed : s.logFP = none) :
    ((PrintDebugString sw libc msg args s).logFP = none ∧
        sameLogger s (PrintDebugString sw libc msg args s)) ∧
      ((PrintJavaDebugString2 sw libc msg args s).logFP = none ∧
        sameLogger s (PrintJavaDebugString2 sw libc msg args s)) ∧
      ((wPrintDebugString sw libc wmsg args s).logFP = none ∧
        sameLogger s (wPrintDebugString sw libc wmsg args s)) ∧
      ((wPrintJavaDebugString sw libc wmsg args s).logFP = none ∧
        sameLogger s (wPrintJavaDebugString sw libc wmsg args s)) ∧
      (sw.DEBUGGING_ON = false →
        PrintDebugString sw libc msg args s = s ∧ wPrintDebugString sw libc wmsg args s = s) ∧
      (sw.JAVA_DEBUGGING_ON = false →
        PrintJavaDebugString2 sw libc msg args s = s ∧
          wPrintJavaDebugString sw libc wmsg args s = s) := by
  have h1 := print_frame sw libc (PrintCall.native msg args) s
  have h2 := print_frame sw libc (PrintCall.java msg args) s
  have h3 := print_frame sw libc (PrintCall.wnative wmsg args) s
  have h4 := print_frame sw libc (PrintCall.wjava wmsg args) s
  simp only [PrintCall.run] at h1 h2 h3 h4
  exact ⟨⟨h1.1.trans hclosed, h1.1, h1.2.2.2 hclosed, h1.2.1, h1.2.2.1⟩,
    ⟨h2.1.trans hclosed, h2.1, h2.2.2.2 hclosed, h2.2.1, h2.2.2.1⟩,
    ⟨h3.1.trans hclosed, h3.1, h3.2.2.2 hclosed, h3.2.1, h3.2.2.1⟩,
    ⟨h4.1.trans hclosed, h4.1, h4.2.2.2 hclosed, h4.2.1, h4.2.2.1⟩,
    fun hoff => ⟨by unfold PrintDebugString; rw [hoff]; exact logToFile_closed _ s hclosed,
      by unfold wPrintDebugString; rw [hoff]; exact logToFile_closed _ s hclosed⟩,
    fun hoff => ⟨by unfold PrintJavaDebugString2; rw [hoff]; exact logToFile_closed _ s hclosed,
      by unfold wPrintJavaDebugString; rw [hoff]; exact logToFile_closed _ s hclosed⟩⟩

theorem print_closed_noop_witness :
    (finalizeFileLogger openState).logFP = none ∧
      (PrintDebugString allOn exLibc longMsg [] (finalizeFileLogger openState)).logFP = none ∧
      sameLogger (finalizeFileLogger openState)
        (wPrintDebugString allOn exLibc [111, 107] [] (finalizeFileLogger openState)) ∧
      sameLogger closedState (PrintJavaDebugString2 allOff exLibc longMsg [] closedState) :=
  ⟨by decide,
    (print_closed_noop allOn exLibc longMsg [111, 107] [] (finalizeFileLogger openState)
      (by decide)).1.1,
    (print_closed_noop allOn exLibc longMsg [111, 107] [] (finalizeFileLogger openState)
      (by decide)).2.2.1.2,
    (print_closed_noop allOff exLibc longMsg [111, 107] [] closedState (by decide)).2.1.2⟩

/-! ## The claims on `initializeFileLogger` and `finalizeFileLogger` -/

/-- C3: starting from a Closed sink, after `initializeFileLogger` the sink is
Open if and only if the environment variable is set, the name is not null and
`fopen` succeeds on the composed path; when the variable is unset or the open
fails the sink is Closed, and while the sink is Closed no sequence of print
calls puts a character on any stream or changes the sink. -/
theorem initialize_open_iff (sw : Switches) (libc : Libc) (fileName : Option (List Char))
    (s : State) (hclosed : s.logFP = none) :
    ((initializeFileLogger sw libc fileName s).isOpen = true ↔
        ∃ dir name, s.env = some dir ∧ fileName = some name ∧
          s.canOpen (logPath (strOf dir) (strOf name)) = true) ∧
      (s.env = none → (initializeFileLogger sw libc fileName s).logFP = none) ∧
      (∀ dir name, s.env = some dir → fileName = some name →
        s.canOpen (logPath (strOf dir) (strOf name)) = false →
        (initializeFileLogger sw libc fileName s).logFP = none) ∧
      ((initializeFileLogger sw libc fileName s).logFP = none →
        ∀ calls : List PrintCall,
          (runPrints sw libc calls (initializeFileLogger sw libc fileName s)).logFP = none ∧
          (runPrints sw libc calls (initializeFileLogger sw libc fileName s)).written =
            (initializeFileLogger sw libc fileName s).written) := by
  refine ⟨?_, ?_, ?_, ?_⟩
  · cases henv : s.env with
    | none =>
      rw [initialize_noenv sw libc fileName s henv]
      simp [State.isOpen, hclosed]
    | some dir =>
      cases fileName with
      | none =>
        rw [initialize_null]
        simp [State.isOpen, hclosed]
      | some name =>
        cases hcan : s.canOpen (logPath (strOf dir) (strOf name)) with
        | true =>
          simp [State.isOpen, (initialize_opened sw libc dir name s henv hcan).1, hcan]
        | false =>
          simp [State.isOpen, (initialize_failed sw libc dir name s henv hcan).1, hcan]
  · intro henv
    rw [initialize_noenv sw libc fileName s henv]
    exact hclosed
  · intro dir name henv hname hcan
    subst hname
    exact (initialize_failed sw libc dir name s henv hcan).1
  · intro hnone calls
    have h := runPrints_frame sw libc calls (initializeFileLogger sw libc fileName s)
    exact ⟨h.1.trans hnone, h.2.2.2 hnone⟩

theorem initialize_open_iff_witness :
    (initializeFileLogger allOn exLibc (some ['x']) closedState).isOpen = true ∧
      (initializeFileLogger allOn exLibc (some ['x']) lockedState).logFP = none ∧
      (runPrints allOn exLibc [PrintCall.native ['h', 'i'] [], PrintCall.wjava [111, 107] []]
        (initializeFileLogger allOn exLibc (some ['x']) lockedState)).written =
        (initializeFileLogger allOn exLibc (some ['x']) lockedState).written :=
  ⟨(initialize_open_iff allOn exLibc (some ['x']) closedState (by decide)).1.mpr
      ⟨['d'], ['x'], rfl, rfl, by decide⟩,
    (initialize_open_iff allOn exLibc (some ['x']) lockedState (by decide)).2.2.1
      ['d'] ['x'] rfl rfl (by decide),
    ((initialize_open_iff allOn exLibc (some ['x']) lockedState (by decide)).2.2.2
      (by decide) _).2⟩

/-- C4: for every state, `finalizeFileLogger` leaves the sink Closed; it calls
`fclose` on the handle, once, exactly when the sink was Open; on a Closed sink
it changes nothing; and applying it twice is the same as applying it once. -/
theorem finalize_closes (s : State) :
    (finalizeFileLogger s).logFP = none ∧
      (∀ fp, s.logFP = some fp →
        (finalizeFileLogger s).fcloseCalls = s.fcloseCalls ++ [fp]) ∧
      (s.logFP = none → finalizeFileLogger s = s) ∧
      finalizeFileLogger (finalizeFileLogger s) = finalizeFileLogger s := by
  have hnone : ∀ t : State, t.logFP = none → finalizeFileLogger t = t := by
    intro t ht
    unfold finalizeFileLogger
    rw [ht]
  have hclosed : (finalizeFileLogger s).logFP = none := by
    cases h : s.logFP with
    | none => rw [hnone s h]; exact h
    | some fp => unfold finalizeFileLogger; rw [h]
  refine ⟨hclosed, ?_, hnone s, hnone _ hclosed⟩
  intro fp h
  unfold finalizeFileLogger
  rw [h]
  rfl

theorem finalize_closes_witness :
    (finalizeFileLogger openState).fcloseCalls = [0] ∧
      (finalizeFileLogger (finalizeFileLogger openState)).fcloseCalls = [0] ∧
      (finalizeFileLogger closedState).fcloseCalls = [] :=
  ⟨(finalize_closes openState).2.1 0 rfl,
    ((congrArg State.fcloseCalls (finalize_closes openState).2.2.2).trans (by decide)),
    congrArg State.fcloseCalls ((finalize_closes closedState).2.2.1 rfl)⟩

/-- C7: for every directory string and every name, the array composed by
`initializeFileLogger` is the directory, a slash, the name and `.log` followed
by one NUL; it is composed without a write outside the array, whose size is
`len(dir) + 1 + len(name) + 5`; and the file is opened under that path with
mode `w`. -/
theorem initialize_path (sw : Switches) (libc : Libc) (dir name : List Char) (s : State)
    (hd : IsCStr dir) (hn : IsCStr name) (henv : s.env = some dir) :
    composePath s.uninit dir name = some (dir ++ ['/'] ++ name ++ dotLog ++ [NUL]) ∧
      (dir ++ ['/'] ++ name ++ dotLog ++ [NUL]).length = strlen dir + 1 + strlen name + 5 ∧
      strlen dir + 1 + strlen name + 5 = dir.length + 1 + name.length + 5 ∧
      cstr (dir ++ ['/'] ++ name ++ dotLog ++ [NUL]) = some (dir ++ ['/'] ++ name ++ dotLog) ∧
      (initializeFileLogger sw libc (some name) s).fopenCalls =
        s.fopenCalls ++ [(dir ++ ['/'] ++ name ++ dotLog, ['w'])] := by
  have hc := composePath_eq s.uninit dir name
  have hne := logPath_ne_NUL dir name
  have hcalls : (initializeFileLogger sw libc (some name) s).fopenCalls =
      s.fopenCalls ++ [(logPath (strOf dir) (strOf name), ['w'])] := by
    cases hcan : s.canOpen (logPath (strOf dir) (strOf name)) with
    | true => exact (initialize_opened sw libc dir name s henv hcan).2
    | false => exact (initialize_failed sw libc dir name s henv hcan).2
  have hsd : strlen dir = dir.length := by unfold strlen; rw [strOf_of_isCStr hd]
  have hsn : strlen name = name.length := by unfold strlen; rw [strOf_of_isCStr hn]
  rw [strOf_of_isCStr hd, strOf_of_isCStr hn] at hc hne hcalls
  unfold logPath at hc hne hcalls
  refine ⟨hc, ?_, ?_, cstr_terminated _ hne, hcalls⟩
  · rw [hsd, hsn]
    simp only [List.length_append, List.length_singleton, dotLog, List.length_cons,
      List.length_nil]
  · rw [hsd, hsn]

theorem initialize_path_witness :
    composePath closedState.uninit ['d'] ['f', 'o', 'o'] = some ("d/foo.log".toList ++ [NUL]) ∧
      (initializeFileLogger allOff exLibc (some ['f', 'o', 'o']) closedState).fopenCalls =
        [("d/foo.log".toList, ['w'])] :=
  ⟨(initialize_path allOff exLibc ['d'] ['f', 'o', 'o'] closedState (by decide) (by decide)
      rfl).1,
    (initialize_path allOff exLibc ['d'] ['f', 'o', 'o'] closedState (by decide) (by decide)
      rfl).2.2.2.2⟩

/-- C8, as stated, fails: with the variable set, the empty name makes
`initializeFileLogger` open the file `.log` of the directory and leave the
sink Open. -/
theorem initialize_empty_name_opens :
    closedState.logFP = none ∧ closedState.fopenCalls = [] ∧
      (initializeFileLogger allOff exLibc (some []) closedState).fopenCalls =
        [("d/.log".toList, ['w'])] ∧
      (initializeFileLogger allOff exLibc (some []) closedState).logFP = some 0 := by
  decide

/-- C8, amended: for every environment and every sink state,
`initializeFileLogger` called with a null name changes nothing, and so does a
call with the empty name when the variable is unset. -/
theorem initialize_null_noop (sw : Switches) (libc : Libc) (s : State) :
    initializeFileLogger sw libc none s = s ∧
      (s.env = none → initializeFileLogger sw libc (some []) s = s) :=
  ⟨initialize_null sw libc s, initialize_noenv sw libc (some []) s⟩

theorem initialize_null_noop_witness :
    (initializeFileLogger allOn exLibc none closedState).fopenCalls = [] ∧
      (initializeFileLogger allOn exLibc (some []) noEnvState).logFP = none :=
  ⟨congrArg State.fopenCalls (initialize_null_noop allOn exLibc closedState).1,
    congrArg State.logFP ((initialize_null_noop allOn exLibc noEnvState).2 rfl)⟩

/-- C9, as stated, fails: `initializeFileLogger` on an Open sink assigns the
result of the new `fopen` to `logFP`; when that open fails the sink is Closed
afterwards, and when it succeeds the sink holds another handle, the old one
not having been closed. -/
theorem initialize_reopen_changes_sink :
    openLockedState.logFP = some 0 ∧
      (initializeFileLogger allOff exLibc (some ['x']) openLockedState).logFP = none ∧
      openState.logFP = some 0 ∧
      (initializeFileLogger allOff exLibc (some ['x']) openState).logFP = some 1 ∧
      (initializeFileLogger allOff exLibc (some ['x']) openState).fcloseCalls = [] := by
  decide

/-- C9, amended: `finalizeFileLogger` takes an Open sink to Closed;
`initializeFileLogger` leaves an Open sink as it is, with the same handle,
when the variable is unset or the name is null; and the four print functions
never change the sink. -/
theorem sink_transitions (sw : Switches) (libc : Libc) (fileName : Option (List Char))
    (s : State) (fp : Handle) (hopen : s.logFP = some fp) :
    (finalizeFileLogger s).logFP = none ∧
      (s.env = none ∨ fileName = none →
        initializeFileLogger sw libc fileName s = s ∧
          (initializeFileLogger sw libc fileName s).logFP = some fp) ∧
      (∀ (t : State) (msg : List Char) (wmsg : List Nat) (args : List Arg),
        (PrintDebugString sw libc msg args t).logFP = t.logFP ∧
          (PrintJavaDebugString2 sw libc msg args t).logFP = t.logFP ∧
          (wPrintDebugString sw libc wmsg args t).logFP = t.logFP ∧
          (wPrintJavaDebugString sw libc wmsg args t).logFP = t.logFP) ∧
      (∀ calls : List PrintCall, (runPrints sw libc calls s).logFP = some fp) := by
  refine ⟨?_, ?_, ?_, ?_⟩
  · unfold finalizeFileLogger
    rw [hopen]
  · intro h
    have hs : initializeFileLogger sw libc fileName s = s := by
      rcases h with h | h
      · exact initialize_noenv sw libc fileName s h
      · rw [h]; exact initialize_null sw libc s
    rw [hs]
    exact ⟨rfl, hopen⟩
  · intro t msg wmsg args
    exact ⟨(print_frame sw libc (PrintCall.native msg args) t).1,
      (print_frame sw libc (PrintCall.java msg args) t).1,
      (print_frame sw libc (PrintCall.wnative wmsg args) t).1,
      (print_frame sw libc (PrintCall.wjava wmsg args) t).1⟩
  · intro calls
    exact (runPrints_frame sw libc calls s).1.trans hopen

theorem sink_transitions_witness :
    (finalizeFileLogger openState).logFP = none ∧
      (initializeFileLogger allOn exLibc none openState).logFP = some 0 ∧
      (runPrints allOn exLibc [PrintCall.native longMsg [], PrintCall.wjava [111, 107] []]
        openState).logFP = some 0 :=
  ⟨(sink_transitions allOn exLibc none openState 0 rfl).1,
    ((sink_transitions allOn exLibc none openState 0 rfl).2.1 (Or.inr rfl)).2,
    (sink_transitions allOn exLibc none openState 0 rfl).2.2.2 _⟩

end AccessBridgeDebug
